import Mathlib

/-!
Verification of the efgrabber work-discovery / scheduling / retry engine
against its natural-language specification.

The definitions below are a shallow embedding of the C++ sources:
  * src/database.cpp           (WorkStore: files table, pending queries, stats)
  * src/download_manager.cpp   (Controller, Dispatcher, EnumeratorWorker,
                                sigmoid back-off, per-item disposition)
  * downloader.cpp             (Fetcher: download_to_file, cookie selection)
  * scraper.cpp                (LinkExtractor: extract_pdf_links,
                                format_file_id / parse_file_id_number)

Machine integers of the source are modelled as Nat / Int (the quantities
involved — row ids, byte counts, HTTP codes, file-id numbers — never reach
the 64-bit overflow region in the modelled scenarios, and the source uses
int64_t / uint64_t throughout).  SQLite state is modelled as an explicit
row list plus the AUTOINCREMENT cursor.
-/

namespace Efgrabber

/-! ## Data model (common.h) -/

/-- The enum `DownloadStatus` from include/efgrabber/common.h. -/
inductive DownloadStatus where
  | pending
  | inProgress
  | completed
  | failed
  | notFound
  | skipped
deriving DecidableEq, Repr

/-- The column values supplied to `INSERT OR IGNORE INTO files ...`
(`Database::add_file` binds exactly data_set, file_id, url, local_path,
status). -/
structure FileRecord where
  data_set : Int
  file_id : String
  url : String
  local_path : String
  status : DownloadStatus
deriving DecidableEq, Repr

/-- A stored row of the `files` table (the columns the modelled operations
read or write; timestamps are not modelled). -/
structure FileRow where
  id : Nat
  data_set : Int
  file_id : String
  url : String
  local_path : String
  status : DownloadStatus
  retry_count : Nat
deriving DecidableEq, Repr

/-- The `files` table: rows in rowid order plus the AUTOINCREMENT cursor. -/
structure FilesState where
  rows : List FileRow
  next_id : Nat
deriving DecidableEq, Repr

/-! ## WorkStore operations (src/database.cpp) -/

/-- The query `SELECT 1 FROM files WHERE file_id = ? AND data_set = ? LIMIT 1`
(`Database::file_exists`). -/
def keyPresent (s : FilesState) (ds : Int) (fid : String) : Bool :=
  s.rows.any (fun r => r.data_set == ds && r.file_id == fid)

/-- One `INSERT OR IGNORE INTO files (data_set, file_id, url, local_path,
status) VALUES (?,?,?,?,?)` step: on a `(data_set, file_id)` conflict the
statement is a no-op, otherwise a fresh row is appended with the next
AUTOINCREMENT id and `retry_count` 0 (column default). -/
def insertOrIgnore (s : FilesState) (rec : FileRecord) : FilesState :=
  if keyPresent s rec.data_set rec.file_id then s
  else
    { rows := s.rows ++
        [{ id := s.next_id, data_set := rec.data_set, file_id := rec.file_id,
           url := rec.url, local_path := rec.local_path, status := rec.status,
           retry_count := 0 }],
      next_id := s.next_id + 1 }

/-- The operation `Database::add_files_batch` (src/database.cpp:143-182): the prepared
insert-or-ignore statement executed for each record inside one
transaction.  The failure paths (`rc != SQLITE_DONE` → ROLLBACK) do not
arise in the model, so the batch is the fold of the per-record step. -/
def add_files_batch (s : FilesState) (records : List FileRecord) : FilesState :=
  records.foldl insertOrIgnore s

/-- The query `Database::get_pending_files` (src/database.cpp:324-360):
`SELECT ... FROM files WHERE status = 'PENDING' LIMIT ?` — rows are
filtered by status only (no data_set condition) and returned in rowid
order, truncated to the limit. -/
def get_pending_files (s : FilesState) (limit : Nat) : List FileRow :=
  (s.rows.filter (fun r => r.status == DownloadStatus.pending)).take limit

/-- The per-status file counts of `Database::get_stats`
(src/database.cpp:584-601): `SELECT status, COUNT(*) FROM files WHERE
data_set = ? GROUP BY status`. -/
structure DbFileStats where
  files_pending : Nat
  files_in_progress : Nat
  files_completed : Nat
  files_failed : Nat
  files_not_found : Nat
deriving DecidableEq, Repr

/-- The function `Database::get_stats` restricted to the file-status counts it computes
for the given data-set. -/
def get_stats (s : FilesState) (ds : Int) : DbFileStats :=
  let counted := fun st =>
    (s.rows.filter (fun r => r.data_set == ds && r.status == st)).length
  { files_pending := counted DownloadStatus.pending,
    files_in_progress := counted DownloadStatus.inProgress,
    files_completed := counted DownloadStatus.completed,
    files_failed := counted DownloadStatus.failed,
    files_not_found := counted DownloadStatus.notFound }

/-- Modelled from the spec: `Database::reset_in_progress_files` is declared
in include/efgrabber/database.h ("Reset IN_PROGRESS to PENDING (for crash
recovery)") and called through
`DownloadManager::reset_interrupted_downloads`, but its body is not among
the provided sources.  Spec §4.1: `reset_in_progress(data_set_id)` — bulk
`InProgress → Pending` for that data-set. -/
def reset_in_progress_files (s : FilesState) (ds : Int) : FilesState :=
  { s with rows := s.rows.map (fun r =>
      if r.data_set == ds && r.status == DownloadStatus.inProgress then
        { r with status := DownloadStatus.pending }
      else r) }

/-- The store mutations `DownloadManager::start`
(src/download_manager.cpp:83-133) and `start_download_only` (135-173)
perform before spawning the worker threads: the bodies only reset
session counters, build the scraper and the pools, and launch threads —
neither calls any `Database` row-status operation, so the `files` table is
unchanged.  (The GUI callers invoke
`DownloadManager::reset_interrupted_downloads` separately before calling
`start_download_only`; `main_cli.cpp` calls `start` with no reset.) -/
def start_store_prelude (s : FilesState) : FilesState := s

/-! ## Fetcher (downloader.cpp) -/

/-- The observable inputs of one `download_to_file` transfer: what libcurl
reports back through `curl_easy_perform`, the response-code query, the
write callback (`body_len` is the byte total accumulated in
`write_data.downloaded`) and the header callback (`advertised_length` is
the parsed `Content-Length` header, absent when the server sent none). -/
structure WireOutcome where
  curl_ok : Bool
  cancelled : Bool
  http_code : Int
  body_len : Nat
  advertised_length : Option Nat
  curl_error : String
  wire_time_ms : Int
deriving DecidableEq, Repr

/-- The fields of `DownloadResult` that `download_to_file` fills in, plus
whether the function removed the (partial) output file. -/
structure FetchResult where
  success : Bool
  http_code : Int
  content_length : Int
  expected_length : Int
  error_message : String
  download_time_ms : Int
  file_removed : Bool
deriving DecidableEq, Repr

/-- The field `HeaderData.content_length` after the header callback: initialised to
-1 and overwritten with the parsed value when a `Content-Length` header
arrives (downloader.cpp:131-158). -/
def parsedContentLength (adv : Option Nat) : Int :=
  match adv with
  | none => -1
  | some v => (v : Int)

/-- The operation `Downloader::download_to_file` (downloader.cpp:323-405), the live
version carrying `expected_length` and `download_time_ms`.  `file_open_ok`
models the `std::ofstream` open check; when it fails the zero-initialised
result is returned with an error message and the (empty) file is left in
place.  After the transfer: a libcurl error removes the partial file; on
`CURLE_OK`, success is `2xx`, demoted to a "Size mismatch" failure when a
positive `Content-Length` was advertised and the byte count differs, and
any non-success removes the file. -/
def download_to_file (file_open_ok : Bool) (w : WireOutcome) : FetchResult :=
  if file_open_ok = false then
    { success := false, http_code := 0, content_length := 0,
      expected_length := 0, error_message := "Failed to open file for writing",
      download_time_ms := 0, file_removed := false }
  else
    let expected := parsedContentLength w.advertised_length
    let downloaded : Int := (w.body_len : Int)
    if w.curl_ok = false then
      { success := false, http_code := w.http_code, content_length := downloaded,
        expected_length := expected,
        error_message := if w.cancelled then "Download cancelled" else w.curl_error,
        download_time_ms := w.wire_time_ms, file_removed := true }
    else if 200 ≤ w.http_code ∧ w.http_code < 300 then
      if 0 < expected ∧ downloaded ≠ expected then
        { success := false, http_code := w.http_code, content_length := downloaded,
          expected_length := expected,
          error_message := "Size mismatch: expected " ++ toString expected ++
            " bytes, got " ++ toString downloaded,
          download_time_ms := w.wire_time_ms, file_removed := true }
      else
        { success := true, http_code := w.http_code, content_length := downloaded,
          expected_length := expected, error_message := "",
          download_time_ms := w.wire_time_ms, file_removed := false }
    else
      { success := false, http_code := w.http_code, content_length := downloaded,
        expected_length := expected,
        error_message := "HTTP error: " ++ toString w.http_code,
        download_time_ms := w.wire_time_ms, file_removed := true }

/-! ## Cookie selection (downloader.cpp, download_manager.cpp) -/

/-- What `setup_common_options` attaches to the request. -/
inductive CookieSource where
  | fromFile (path : String)
  | fromLiteral (value : String)
  | noCookie
deriving DecidableEq, Repr

/-- The cookie-related state of a `Downloader`. -/
structure DownloaderState where
  cookie : String
  cookie_file : String
deriving DecidableEq, Repr

/-- include/efgrabber/common.h:117. -/
def REQUIRED_COOKIE : String := "justiceGovAgeVerified=true"

/-- The constructor `Downloader::Downloader()` initialises `cookie_(REQUIRED_COOKIE)` and
leaves `cookie_file_` empty. -/
def newDownloader : DownloaderState :=
  { cookie := REQUIRED_COOKIE, cookie_file := "" }

/-- The setter `Downloader::set_cookie`. -/
def set_cookie (d : DownloaderState) (v : String) : DownloaderState :=
  { d with cookie := v }

/-- The setter `Downloader::set_cookie_file`. -/
def set_cookie_file (d : DownloaderState) (f : String) : DownloaderState :=
  { d with cookie_file := f }

/-- The cookie branch of `Downloader::setup_common_options`
(downloader.cpp:240-245): "Use cookie file if specified, otherwise use
cookie string" — `CURLOPT_COOKIEFILE` when `cookie_file_` is non-empty,
else `CURLOPT_COOKIE` when `cookie_` is non-empty. -/
def setup_common_options_cookie (d : DownloaderState) : CookieSource :=
  if d.cookie_file ≠ "" then CookieSource.fromFile d.cookie_file
  else if d.cookie ≠ "" then CookieSource.fromLiteral d.cookie
  else CookieSource.noCookie

/-- How `DownloadManager::download_file` (src/download_manager.cpp:721-726)
configures the fresh per-task `Downloader` from the manager's
`cookie_string_` / `cookie_file_` settings: the literal string is applied
when non-empty, otherwise the file (the same pattern appears in
`scraper_worker` and `scrape_page`). -/
def manager_configure_downloader (cookie_string cookie_file : String)
    (d : DownloaderState) : DownloaderState :=
  if cookie_string ≠ "" then set_cookie d cookie_string
  else if cookie_file ≠ "" then set_cookie_file d cookie_file
  else d

/-! ## Per-item disposition (DownloadManager::download_file) -/

/-- The externally visible effect of the status-classification part of
`DownloadManager::download_file` (src/download_manager.cpp:739-786) on one
work item: the new status and reason written through
`update_file_status`, the recorded size, whether the branch removes any
partial file, whether it calls `increment_retry_count`, and its additions
to the session byte and wire-time accumulators. -/
structure DispositionEffect where
  newStatus : DownloadStatus
  reason : String
  recordedSize : Int
  deletesPartial : Bool
  incrementsRetry : Bool
  bytesDelta : Int
  wireDelta : Int
deriving DecidableEq, Repr

/-- The branch cascade of `DownloadManager::download_file` applied to the
fetch result (the pre-fetch skip check for an already present local file
precedes the fetch and is outside this function). -/
def download_file_disposition (r : FetchResult) : DispositionEffect :=
  if r.http_code = 404 then
    { newStatus := DownloadStatus.notFound, reason := "404 Not Found",
      recordedSize := 0, deletesPartial := true, incrementsRetry := false,
      bytesDelta := 0, wireDelta := 0 }
  else if r.http_code = 403 ∨ r.http_code = 429 then
    { newStatus := DownloadStatus.failed,
      reason := "Blocked: HTTP " ++ toString r.http_code,
      recordedSize := 0, deletesPartial := true, incrementsRetry := true,
      bytesDelta := 0, wireDelta := 0 }
  else if r.success = true ∧ 0 < r.content_length then
    { newStatus := DownloadStatus.completed, reason := "",
      recordedSize := r.content_length, deletesPartial := false,
      incrementsRetry := false, bytesDelta := r.content_length,
      wireDelta := r.download_time_ms }
  else if r.success = true ∧ r.content_length = 0 then
    { newStatus := DownloadStatus.notFound, reason := "Empty response",
      recordedSize := 0, deletesPartial := true, incrementsRetry := false,
      bytesDelta := 0, wireDelta := 0 }
  else
    { newStatus := DownloadStatus.failed, reason := r.error_message,
      recordedSize := 0, deletesPartial := true, incrementsRetry := true,
      bytesDelta := 0, wireDelta := 0 }

/-! ## Sigmoid back-off (src/download_manager.cpp:14-26) -/

/-- The double-precision expression of `calculate_s_curve_backoff`,
modelled over the reals:
`min_delay + (max_delay - min_delay) / (1 + exp(-k * (retry_count - mid)))`
with `max_delay = 600`, `min_delay = 5`, `k = 1`, `mid = 5`. -/
noncomputable def s_curve_delay (retry_count : Int) : Real :=
  5 + (600 - 5) / (1 + Real.exp (-(1 : Real) * ((retry_count : Real) - 5)))

/-- The function `calculate_s_curve_backoff`: 0 for `retry_count ≤ 0`, otherwise the
sigmoid delay truncated to an integer (`static_cast<int64_t>` truncates
toward zero, which on this everywhere-positive value is the floor). -/
noncomputable def calculate_s_curve_backoff (retry_count : Int) : Int :=
  if retry_count ≤ 0 then 0 else ⌊s_curve_delay retry_count⌋

/-! ## LinkExtractor (scraper.cpp) -/

/-- Decimal digit emission, structurally recursive on a fuel bound (any
`fuel > n` is enough, since the recursion divides `n` by 10). -/
def natToDigitsAux : Nat → Nat → List Char
  | 0, _ => []
  | fuel + 1, n =>
      if n < 10 then [Char.ofNat (48 + n)]
      else natToDigitsAux fuel (n / 10) ++ [Char.ofNat (48 + n % 10)]

/-- Decimal digit list of a natural number, most significant first —
the digit sequence `std::ostringstream << number` emits. -/
def natToDigits (n : Nat) : List Char := natToDigitsAux (n + 1) n

/-- Semantics of `std::stoull` on a digit string, as the usual left fold. -/
def digitsToNat (ds : List Char) : Nat :=
  ds.foldl (fun a c => 10 * a + (c.toNat - 48)) 0

/-- The character class of the regex `\\d` (ASCII `[0-9]`). -/
def isDigitChar (c : Char) : Bool := 48 ≤ c.toNat && c.toNat ≤ 57

/-- The function `Scraper::format_file_id` (scraper.cpp:116-120):
`config_.file_prefix` followed by the number via
`std::setw(8) << std::setfill('0')` — the decimal digits left-padded with
zeros to a minimum width of 8. -/
def format_file_id (pfx : String) (n : Nat) : String :=
  pfx ++ String.mk (List.replicate (8 - (natToDigits n).length) '0' ++ natToDigits n)

/-- Matching the file-id regex `EFTA(\d{8})` at the head of the character
list: the literal `EFTA` followed by at least 8 digit characters; the
capture is those 8 digits. -/
def eftaHere : List Char → Option (List Char)
  | 'E' :: 'F' :: 'T' :: 'A' :: rest =>
      if (rest.take 8).length = 8 ∧ (rest.take 8).all isDigitChar then
        some (rest.take 8)
      else none
  | _ => none

/-- Semantics of `std::regex_search` with pattern `EFTA(\d{8})`: the leftmost position
where the pattern matches, scanning left to right. -/
def eftaSearch : List Char → Option (List Char)
  | [] => none
  | c :: rest =>
      match eftaHere (c :: rest) with
      | some ds => some ds
      | none => eftaSearch rest

/-- The function `Scraper::extract_file_id` (scraper.cpp:100-106): on a regex match,
`config_.file_prefix` + the captured 8 digits; otherwise the empty
string. -/
def extract_file_id (pfx : String) (s : String) : String :=
  match eftaSearch s.toList with
  | some ds => pfx ++ String.mk ds
  | none => ""

/-- The function `Scraper::parse_file_id_number` (scraper.cpp:108-114): `std::stoull`
of the captured 8 digits, 0 when the regex does not match. -/
def parse_file_id_number (s : String) : Nat :=
  match eftaSearch s.toList with
  | some ds => digitsToNat ds
  | none => 0

/-- The function `Scraper::is_valid_file_id` (scraper.cpp:122-124): `std::regex_match`
— the whole string must be `EFTA` followed by exactly 8 digits. -/
def is_valid_file_id (s : String) : Bool :=
  match s.toList with
  | 'E' :: 'F' :: 'T' :: 'A' :: rest => rest.length == 8 && rest.all isDigitChar
  | _ => false

/-- One extracted link (`PdfLink` of include/efgrabber/scraper.h). -/
structure PdfLink where
  file_id : String
  url : String
  filename : String
deriving DecidableEq, Repr

/-- The test `href.find("http") == 0`: the href begins with the four characters
`http`. -/
def headIsHttp (href : String) : Bool :=
  match href.toList with
  | 'h' :: 't' :: 't' :: 'p' :: _ => true
  | _ => false

/-- URL absolutisation in `Scraper::extract_pdf_links`
(scraper.cpp:50-59): an href beginning with "http" is kept, a
root-relative href gets the host prepended, anything else gets
host + "/".  (The `%20` scan that follows in the source deliberately
keeps the encoding and changes nothing.) -/
def build_link_url (href : String) : String :=
  if headIsHttp href then href
  else if href.toList.head? = some '/' then "https://www.justice.gov" ++ href
  else "https://www.justice.gov/" ++ href

/-- The match loop of `Scraper::extract_pdf_links` (scraper.cpp:39-73)
applied to the href capture groups, in match order: links whose file id
extraction fails are dropped, the rest carry the extracted key, the
absolutised URL and `<key>.pdf`. -/
def collect_links (pfx : String) : List String → List PdfLink
  | [] => []
  | href :: rest =>
      let fid := extract_file_id pfx href
      if fid = "" then collect_links pfx rest
      else { file_id := fid, url := build_link_url href,
             filename := fid ++ ".pdf" } :: collect_links pfx rest

/-- Tail worker of the adjacent-duplicate erase: `kept` is the most
recently retained link; later links with the same key are dropped. -/
def uniqAdjGo (kept : PdfLink) : List PdfLink → List PdfLink
  | [] => []
  | b :: t =>
      if kept.file_id = b.file_id then uniqAdjGo kept t
      else b :: uniqAdjGo b t

/-- Semantics of `std::unique` with predicate `a.file_id == b.file_id` followed by
`erase` (scraper.cpp:78-80): of each run of adjacent links with equal
keys only the first survives. -/
def uniqAdjByKey : List PdfLink → List PdfLink
  | [] => []
  | a :: t => a :: uniqAdjGo a t

/-- The function `Scraper::extract_pdf_links` (scraper.cpp:33-83) downstream of the
regex iteration: build links from the href matches, `std::sort` by
`file_id` (insertion sort is one valid refinement of the unstable
`std::sort`; ties only reorder links with equal keys, which the following
dedup collapses), then drop adjacent duplicates by key.  The href matches
stand for capture group 1 of `pdf_link_regex_` over the page HTML, in
match order, so quantifying over them covers every HTML input. -/
def extract_pdf_links (pfx : String) (hrefMatches : List String) : List PdfLink :=
  uniqAdjByKey
    (List.insertionSort (fun a b => a.file_id ≤ b.file_id) (collect_links pfx hrefMatches))

/-! ## EnumeratorWorker (DownloadManager::brute_force_worker) -/

/-- The resume computation of `brute_force_worker`
(src/download_manager.cpp:463-466): `start_id` is the stored checkpoint
unless that is 0 or below `first_file_id`, in which case it is
`first_file_id`. -/
def bf_start_id (checkpoint first : Nat) : Nat :=
  if checkpoint = 0 ∨ checkpoint < first then first else checkpoint

/-- Result of a brute-force run: ids committed to the store through
`add_files_batch` in order, the persisted enumerator checkpoint, and
`brute_force_current_`. -/
structure BfOut where
  flushed : List Nat
  checkpoint : Nat
  current : Nat
deriving DecidableEq, Repr

/-- The id loop of `brute_force_worker` (src/download_manager.cpp:481-523)
without a stop or pause request: each id not already in the store is
staged; when the batch reaches 1000 it is flushed and the checkpoint set
to the current id; after the loop a non-empty remaining batch is flushed
with the checkpoint set to `brute_force_current_` (the last id
processed) — an empty remaining batch is not flushed and the checkpoint
is left where the last flush (or the initial state) put it. -/
def bf_loop (pfx : String) (existing : List String) :
    Nat → Nat → List Nat → List Nat → Nat → Nat → BfOut
  | 0, _, batch, acc, cp, cur =>
      if batch.isEmpty then { flushed := acc, checkpoint := cp, current := cur }
      else { flushed := acc ++ batch, checkpoint := cur, current := cur }
  | fuel + 1, id, batch, acc, cp, _cur =>
      let batch' := if format_file_id pfx id ∈ existing then batch else batch ++ [id]
      if 1000 ≤ batch'.length then
        bf_loop pfx existing fuel (id + 1) [] (acc ++ batch') id id
      else
        bf_loop pfx existing fuel (id + 1) batch' acc cp id
  -- the first argument is the remaining iteration count `last + 1 - id`,
  -- which reaches 0 exactly when `id` passes `last_file_id` and the
  -- `for` loop falls through to the trailing flush

/-- The worker `DownloadManager::brute_force_worker` run to completion (no stop request):
resume from `bf_start_id`, then run the id loop over
`[start_id, last_file_id]` with an empty batch, `brute_force_current_`
initialised to the start id and the checkpoint at its stored value. -/
def brute_force_worker (pfx : String) (existing : List String)
    (first last checkpoint : Nat) : BfOut :=
  bf_loop pfx existing (last + 1 - bf_start_id checkpoint first)
    (bf_start_id checkpoint first) [] [] checkpoint (bf_start_id checkpoint first)

/-! ## Store lemmas -/

theorem keyPresent_insertOrIgnore_self (s : FilesState) (rec : FileRecord) :
    keyPresent (insertOrIgnore s rec) rec.data_set rec.file_id = true := by
  unfold insertOrIgnore
  by_cases h : keyPresent s rec.data_set rec.file_id = true
  · rw [if_pos h]
    exact h
  · rw [if_neg h]
    unfold keyPresent
    simp

theorem keyPresent_insertOrIgnore_mono (s : FilesState) (rec : FileRecord)
    (ds : Int) (fid : String) (h : keyPresent s ds fid = true) :
    keyPresent (insertOrIgnore s rec) ds fid = true := by
  unfold insertOrIgnore
  by_cases hp : keyPresent s rec.data_set rec.file_id = true
  · rw [if_pos hp]
    exact h
  · rw [if_neg hp]
    unfold keyPresent at h ⊢
    simp only [List.any_append, Bool.or_eq_true]
    exact Or.inl h

theorem keyPresent_batch_mono (records : List FileRecord) (s : FilesState)
    (ds : Int) (fid : String) (h : keyPresent s ds fid = true) :
    keyPresent (add_files_batch s records) ds fid = true := by
  induction records generalizing s with
  | nil => exact h
  | cons r t ih =>
      exact ih (insertOrIgnore s r) (keyPresent_insertOrIgnore_mono s r ds fid h)

theorem keyPresent_after_batch (records : List FileRecord) (s : FilesState)
    (rec : FileRecord) (hmem : rec ∈ records) :
    keyPresent (add_files_batch s records) rec.data_set rec.file_id = true := by
  induction records generalizing s with
  | nil => cases hmem
  | cons r t ih =>
      rcases List.mem_cons.mp hmem with hEq | hTail
      · subst hEq
        exact keyPresent_batch_mono t (insertOrIgnore s rec) rec.data_set rec.file_id
          (keyPresent_insertOrIgnore_self s rec)
      · exact ih (insertOrIgnore s r) hTail

theorem add_files_batch_of_all_present (records : List FileRecord) (s : FilesState)
    (h : ∀ rec ∈ records, keyPresent s rec.data_set rec.file_id = true) :
    add_files_batch s records = s := by
  induction records with
  | nil => rfl
  | cons r t ih =>
      have hr : insertOrIgnore s r = s := by
        unfold insertOrIgnore
        rw [if_pos (h r (List.mem_cons_self r t))]
      show add_files_batch (insertOrIgnore s r) t = s
      rw [hr]
      exact ih (fun rec hm => h rec (List.mem_cons_of_mem r hm))

/-- C8: batch insertion with insert-or-ignore semantics is idempotent:
running `add_files_batch` a second time with the same records leaves the
store exactly as after the first run — in particular no row already
present (same `(data_set, file_id)`) is modified, no row is added and the
AUTOINCREMENT cursor stays put. -/
theorem add_files_batch_idempotent (s : FilesState) (records : List FileRecord) :
    add_files_batch (add_files_batch s records) records = add_files_batch s records :=
  add_files_batch_of_all_present records (add_files_batch s records)
    (fun rec hm => keyPresent_after_batch records s rec hm)

/-- C9: `Database::get_pending_files` selects by status `PENDING` only —
it applies no data-set condition, so (second conjunct) a store whose only
row is a Pending row of a foreign data-set still hands that row to the
dispatcher of the active data-set, while `get_stats` for the active
data-set counts zero pending files (the dispatcher's completion check
sees nothing left even though foreign work was dispatched). -/
theorem claim_C9_take_pending_unscoped :
    (∀ (s : FilesState) (n : Nat) (r : FileRow),
        r ∈ get_pending_files s n → r.status = DownloadStatus.pending) ∧
    (∀ (ds : Int) (nid : Nat) (r : FileRow),
        r.status = DownloadStatus.pending → r.data_set ≠ ds →
        r ∈ get_pending_files { rows := [r], next_id := nid } 1 ∧
        (get_stats { rows := [r], next_id := nid } ds).files_pending = 0) := by
  constructor
  · intro s n r hr
    have hf : r ∈ s.rows.filter (fun x => x.status == DownloadStatus.pending) :=
      List.mem_of_mem_take hr
    have := (List.mem_filter.mp hf).2
    simpa using this
  · intro ds nid r hst hds
    constructor
    · unfold get_pending_files
      simp [hst]
    · unfold get_stats
      simp [hds]

theorem claim_C9_witness :
    (⟨7, 2, "EFTA00000001", "u", "p", DownloadStatus.pending, 0⟩ : FileRow) ∈
      get_pending_files
        { rows := [⟨7, 2, "EFTA00000001", "u", "p", DownloadStatus.pending, 0⟩],
          next_id := 8 } 1 ∧
    (get_stats
        { rows := [⟨7, 2, "EFTA00000001", "u", "p", DownloadStatus.pending, 0⟩],
          next_id := 8 } 1).files_pending = 0 :=
  claim_C9_take_pending_unscoped.2 1 8
    ⟨7, 2, "EFTA00000001", "u", "p", DownloadStatus.pending, 0⟩ rfl (by decide)

/-- C2 fails as stated: `DownloadManager::start` (and
`start_download_only`) touch no row status before dispatching begins —
the bodies only reset session counters and spawn workers.  Concretely: a
store holding one `InProgress` row of the active data-set 1 still holds
that `InProgress` row after the startup store actions, where the claim
demands zero. -/
theorem claim_C2_counterexample :
    (get_stats
        (start_store_prelude
          { rows := [⟨1, 1, "EFTA00000001", "u", "p", DownloadStatus.inProgress, 0⟩],
            next_id := 2 })
        1).files_in_progress = 1 := by decide

/-- C2 amended: the `InProgress → Pending` crash-recovery reset is not
performed by `DownloadManager::start` itself; it is the separate
operation `reset_interrupted_downloads` / `Database::reset_in_progress_files`
(invoked by the GUI start paths before `start_download_only`, and never
by the CLI).  That operation does reset exactly the `InProgress` rows of
the given data-set to `Pending`: afterwards no row of the data-set is
`InProgress`, each previously `InProgress` row survives with status
`Pending`, and every other row is untouched. -/
theorem claim_C2_amended : ∀ (s : FilesState) (ds : Int),
    (∀ r ∈ (reset_in_progress_files s ds).rows,
        r.data_set = ds → r.status ≠ DownloadStatus.inProgress) ∧
    (∀ r ∈ s.rows, r.data_set = ds → r.status = DownloadStatus.inProgress →
        ({ r with status := DownloadStatus.pending } : FileRow) ∈
          (reset_in_progress_files s ds).rows) ∧
    (∀ r ∈ s.rows, ¬(r.data_set = ds ∧ r.status = DownloadStatus.inProgress) →
        r ∈ (reset_in_progress_files s ds).rows) := by
  intro s ds
  refine ⟨?_, ?_, ?_⟩
  · intro r hr hds
    unfold reset_in_progress_files at hr
    simp only [List.mem_map] at hr
    obtain ⟨r0, _, hEq⟩ := hr
    by_cases hc : (r0.data_set == ds && r0.status == DownloadStatus.inProgress) = true
    · rw [if_pos hc] at hEq
      rw [← hEq]
      simp
    · rw [if_neg hc] at hEq
      subst hEq
      intro hst
      exact hc (by simp [hds, hst])
  · intro r hr hds hst
    unfold reset_in_progress_files
    simp only [List.mem_map]
    refine ⟨r, hr, ?_⟩
    rw [if_pos (by simp [hds, hst])]
  · intro r hr hc
    unfold reset_in_progress_files
    simp only [List.mem_map]
    refine ⟨r, hr, ?_⟩
    rw [if_neg (by simpa using hc)]

theorem claim_C2_witness :
    (⟨1, 1, "EFTA00000001", "u", "p", DownloadStatus.pending, 0⟩ : FileRow) ∈
      (reset_in_progress_files
        { rows := [⟨1, 1, "EFTA00000001", "u", "p", DownloadStatus.inProgress, 0⟩],
          next_id := 2 } 1).rows :=
  (claim_C2_amended
      { rows := [⟨1, 1, "EFTA00000001", "u", "p", DownloadStatus.inProgress, 0⟩],
        next_id := 2 } 1).2.1
    ⟨1, 1, "EFTA00000001", "u", "p", DownloadStatus.inProgress, 0⟩
    (List.mem_singleton.mpr rfl) rfl rfl

/-- C5 fails as stated: inside the Fetcher itself, when both a literal
cookie and a cookie file are set on the same `Downloader`,
`setup_common_options` sends the cookie FILE, not the literal
("Use cookie file if specified, otherwise use cookie string"). -/
theorem claim_C5_counterexample :
    setup_common_options_cookie
        (set_cookie_file (set_cookie newDownloader "sessionid=abc") "cookies.txt")
      = CookieSource.fromFile "cookies.txt" ∧
    setup_common_options_cookie
        (set_cookie_file (set_cookie newDownloader "sessionid=abc") "cookies.txt")
      ≠ CookieSource.fromLiteral "sessionid=abc" := by
  constructor
  · rfl
  · intro h
    cases h

/-- C5 amended: within the `Downloader`, a non-empty `cookie_file_` takes
precedence over the literal (first conjunct).  The literal-over-file
precedence the spec states holds one level up: `download_file` (like
`scraper_worker` and `scrape_page`) configures the per-task `Downloader`
with `set_cookie(cookie_string_)` whenever the literal is non-empty and
only otherwise falls back to `set_cookie_file`, so every request those
paths issue carries the literal whenever both are configured on the
manager (second conjunct). -/
theorem claim_C5_amended :
    (∀ (d : DownloaderState) (f : String), f ≠ "" →
        setup_common_options_cookie (set_cookie_file d f) = CookieSource.fromFile f) ∧
    (∀ cookie_string cookie_file : String, cookie_string ≠ "" →
        setup_common_options_cookie
            (manager_configure_downloader cookie_string cookie_file newDownloader)
          = CookieSource.fromLiteral cookie_string) := by
  constructor
  · intro d f hf
    unfold setup_common_options_cookie set_cookie_file
    rw [if_pos hf]
  · intro cs cf hcs
    unfold manager_configure_downloader
    rw [if_pos hcs]
    unfold setup_common_options_cookie set_cookie newDownloader
    simp [hcs]

theorem claim_C5_witness :
    setup_common_options_cookie
        (manager_configure_downloader "sessionid=abc" "cookies.txt" newDownloader)
      = CookieSource.fromLiteral "sessionid=abc" :=
  claim_C5_amended.2 "sessionid=abc" "cookies.txt" (by decide)

/-! ## Fetcher lemmas -/

theorem download_to_file_success_2xx (fo : Bool) (w : WireOutcome)
    (h : (download_to_file fo w).success = true) :
    200 ≤ (download_to_file fo w).http_code ∧ (download_to_file fo w).http_code < 300 := by
  cases fo with
  | false => simp [download_to_file] at h
  | true =>
      by_cases hcurl : w.curl_ok = false
      · simp [download_to_file, hcurl] at h
      · by_cases h2 : 200 ≤ w.http_code ∧ w.http_code < 300
        · by_cases hm : 0 < parsedContentLength w.advertised_length ∧
              ((w.body_len : Int) ≠ parsedContentLength w.advertised_length)
          · simp [download_to_file, hcurl, h2, hm] at h
          · simp [download_to_file, hcurl, h2, hm]
        · simp [download_to_file, hcurl, h2] at h

/-- C4 fails as stated: the size check of `download_to_file` fires only
for a POSITIVE advertised `Content-Length` (`expected_length > 0`).  A
response that advertises `Content-Length: 0` yet delivers 5 body bytes on
HTTP 200 differs from its advertised length, but the result is reported
as success and the file is kept — no `SizeMismatch` failure, no
deletion. -/
theorem claim_C4_counterexample :
    (parsedContentLength (WireOutcome.mk true false 200 5 (some 0) "" 3).advertised_length = 0 ∧
     (WireOutcome.mk true false 200 5 (some 0) "" 3).body_len = 5) ∧
    (download_to_file true (WireOutcome.mk true false 200 5 (some 0) "" 3)).success = true ∧
    (download_to_file true (WireOutcome.mk true false 200 5 (some 0) "" 3)).file_removed = false := by
  refine ⟨⟨rfl, rfl⟩, ?_, ?_⟩ <;> rfl

/-- C4 amended: whenever the server advertises a POSITIVE
`Content-Length` and the received byte count differs from it, the
transfer (with the output file successfully opened) is reported as a
failure and the partial file is deleted; when moreover libcurl succeeded
and the status was 2xx, the failure reason is the `Size mismatch`
message. -/
theorem claim_C4_size_mismatch : ∀ w : WireOutcome,
    0 < parsedContentLength w.advertised_length →
    (w.body_len : Int) ≠ parsedContentLength w.advertised_length →
    (download_to_file true w).success = false ∧
    (download_to_file true w).file_removed = true ∧
    (w.curl_ok = true → 200 ≤ w.http_code → w.http_code < 300 →
      (download_to_file true w).error_message =
        "Size mismatch: expected " ++ toString (parsedContentLength w.advertised_length) ++
          " bytes, got " ++ toString ((w.body_len : Int))) := by
  intro w hpos hne
  by_cases hcurl : w.curl_ok = false
  · refine ⟨by simp [download_to_file, hcurl], by simp [download_to_file, hcurl], ?_⟩
    intro hc _ _
    rw [hc] at hcurl
    simp at hcurl
  · by_cases h2 : 200 ≤ w.http_code ∧ w.http_code < 300
    · simp [download_to_file, hcurl, h2, hpos, hne]
    · refine ⟨by simp [download_to_file, hcurl, h2], by simp [download_to_file, hcurl, h2], ?_⟩
      intro _ hlo hhi
      exact absurd ⟨hlo, hhi⟩ h2

theorem claim_C4_witness :
    (download_to_file true (WireOutcome.mk true false 200 0 (some 7) "" 3)).success = false ∧
    (download_to_file true (WireOutcome.mk true false 200 0 (some 7) "" 3)).file_removed = true ∧
    (download_to_file true (WireOutcome.mk true false 200 0 (some 7) "" 3)).error_message =
      "Size mismatch: expected 7 bytes, got 0" := by
  have h := claim_C4_size_mismatch (WireOutcome.mk true false 200 0 (some 7) "" 3)
    (by decide) (by decide)
  exact ⟨h.1, h.2.1, h.2.2 rfl (by decide) (by decide)⟩

/-- C1 fails as stated in its fourth bullet: the claim sends every 2xx
result with body length 0 to `NotFound ("Empty response")`, but
`download_file` requires `result.success` there — a 2xx transfer whose
advertised `Content-Length` is 7 while 0 bytes arrived is a size-mismatch
failure of the Fetcher (2xx, body length 0, not success), and the
disposition is `Failed` (retry incremented), not `NotFound`. -/
theorem claim_C1_counterexample :
    ((download_to_file true (WireOutcome.mk true false 200 0 (some 7) "" 3)).http_code = 200 ∧
     (download_to_file true (WireOutcome.mk true false 200 0 (some 7) "" 3)).content_length = 0) ∧
    (download_file_disposition
        (download_to_file true (WireOutcome.mk true false 200 0 (some 7) "" 3))).newStatus =
      DownloadStatus.failed ∧
    (download_file_disposition
        (download_to_file true (WireOutcome.mk true false 200 0 (some 7) "" 3))).newStatus ≠
      DownloadStatus.notFound := by
  refine ⟨⟨rfl, rfl⟩, rfl, ?_⟩
  intro h
  cases h

/-- C1 amended (the fourth bullet gains "successful", exactly as the
third already has): for every fetch result the dispatcher's disposition
follows the policy table — 404 → delete partial, `NotFound`; 403/429 →
delete partial, `increment_retry`, `Failed ("Blocked: HTTP <code>")`;
successful 2xx with body length > 0 → `Completed` with the recorded size,
adding the body length to `bytes_session` and the wire time to
`wire_time_ms`; successful 2xx with body length 0 → delete partial,
`NotFound ("Empty response")`; every other result → delete partial,
`increment_retry`, `Failed` with the Fetcher's reason. -/
theorem claim_C1_disposition_policy : ∀ (fo : Bool) (w : WireOutcome),
    ((download_to_file fo w).http_code = 404 →
      (download_file_disposition (download_to_file fo w)).newStatus = DownloadStatus.notFound ∧
      (download_file_disposition (download_to_file fo w)).deletesPartial = true) ∧
    (((download_to_file fo w).http_code = 403 ∨ (download_to_file fo w).http_code = 429) →
      (download_file_disposition (download_to_file fo w)).newStatus = DownloadStatus.failed ∧
      (download_file_disposition (download_to_file fo w)).reason =
        "Blocked: HTTP " ++ toString (download_to_file fo w).http_code ∧
      (download_file_disposition (download_to_file fo w)).deletesPartial = true ∧
      (download_file_disposition (download_to_file fo w)).incrementsRetry = true) ∧
    ((download_to_file fo w).success = true → 0 < (download_to_file fo w).content_length →
      (200 ≤ (download_to_file fo w).http_code ∧ (download_to_file fo w).http_code < 300) ∧
      (download_file_disposition (download_to_file fo w)).newStatus = DownloadStatus.completed ∧
      (download_file_disposition (download_to_file fo w)).recordedSize =
        (download_to_file fo w).content_length ∧
      (download_file_disposition (download_to_file fo w)).bytesDelta =
        (download_to_file fo w).content_length ∧
      (download_file_disposition (download_to_file fo w)).wireDelta =
        (download_to_file fo w).download_time_ms) ∧
    ((download_to_file fo w).success = true → (download_to_file fo w).content_length = 0 →
      (download_file_disposition (download_to_file fo w)).newStatus = DownloadStatus.notFound ∧
      (download_file_disposition (download_to_file fo w)).reason = "Empty response" ∧
      (download_file_disposition (download_to_file fo w)).deletesPartial = true) ∧
    ((download_to_file fo w).http_code ≠ 404 →
      ¬((download_to_file fo w).http_code = 403 ∨ (download_to_file fo w).http_code = 429) →
      (download_to_file fo w).success = false →
      (download_file_disposition (download_to_file fo w)).newStatus = DownloadStatus.failed ∧
      (download_file_disposition (download_to_file fo w)).reason =
        (download_to_file fo w).error_message ∧
      (download_file_disposition (download_to_file fo w)).deletesPartial = true ∧
      (download_file_disposition (download_to_file fo w)).incrementsRetry = true) := by
  intro fo w
  refine ⟨?_, ?_, ?_, ?_, ?_⟩
  · intro h404
    simp [download_file_disposition, h404]
  · intro hblk
    rcases hblk with h | h <;> simp [download_file_disposition, h]
  · intro hs hlen
    obtain ⟨hlo, hhi⟩ := download_to_file_success_2xx fo w hs
    have h404 : (download_to_file fo w).http_code ≠ 404 := by omega
    have hblk : ¬((download_to_file fo w).http_code = 403 ∨
        (download_to_file fo w).http_code = 429) := by omega
    refine ⟨⟨hlo, hhi⟩, ?_⟩
    simp [download_file_disposition, h404, hblk, hs, hlen]
  · intro hs hlen
    obtain ⟨hlo, hhi⟩ := download_to_file_success_2xx fo w hs
    have h404 : (download_to_file fo w).http_code ≠ 404 := by omega
    have hblk : ¬((download_to_file fo w).http_code = 403 ∨
        (download_to_file fo w).http_code = 429) := by omega
    simp [download_file_disposition, h404, hblk, hs, hlen]
  · intro h404 hblk hs
    simp [download_file_disposition, h404, hblk, hs]

theorem claim_C1_witness :
    (download_file_disposition
        (download_to_file true (WireOutcome.mk true false 404 0 none "" 3))).newStatus =
      DownloadStatus.notFound ∧
    (download_file_disposition
        (download_to_file true (WireOutcome.mk true false 404 0 none "" 3))).deletesPartial =
      true :=
  (claim_C1_disposition_policy true (WireOutcome.mk true false 404 0 none "" 3)).1 rfl

/-! ## Sigmoid back-off lemmas -/

theorem s_curve_delay_mono (x y : Int) (h : x ≤ y) :
    s_curve_delay x ≤ s_curve_delay y := by
  unfold s_curve_delay
  have hexp : Real.exp (-(1 : Real) * ((y : Real) - 5)) ≤
      Real.exp (-(1 : Real) * ((x : Real) - 5)) := by
    apply Real.exp_le_exp.mpr
    have : (x : Real) ≤ (y : Real) := Int.cast_le.mpr h
    linarith
  gcongr

theorem s_curve_delay_lb (r : Int) : 5 ≤ s_curve_delay r := by
  unfold s_curve_delay
  have h0 : (0 : Real) ≤ (600 - 5) / (1 + Real.exp (-(1 : Real) * ((r : Real) - 5))) := by
    positivity
  linarith

theorem s_curve_delay_ub (r : Int) : s_curve_delay r < 600 := by
  unfold s_curve_delay
  have hexp : (0 : Real) < Real.exp (-(1 : Real) * ((r : Real) - 5)) := Real.exp_pos _
  have h1 : (1 : Real) < 1 + Real.exp (-(1 : Real) * ((r : Real) - 5)) := by linarith
  have h2 : (600 - 5 : Real) / (1 + Real.exp (-(1 : Real) * ((r : Real) - 5))) < 600 - 5 :=
    div_lt_self (by norm_num) h1
  linarith

/-- C3 fails as stated at `retry_count = 0`: `calculate_s_curve_backoff`
returns early with 0 for `retry_count <= 0`, so the delay at 0 is 0, not
in the claimed interval `[5, 600]`. -/
theorem claim_C3_counterexample :
    calculate_s_curve_backoff 0 = 0 ∧ ¬(5 ≤ calculate_s_curve_backoff 0) := by
  have h : calculate_s_curve_backoff 0 = 0 := by
    unfold calculate_s_curve_backoff
    rw [if_pos (le_refl (0 : Int))]
  refine ⟨h, ?_⟩
  rw [h]
  decide

/-- C3 amended: over `retry_count` 0..10 the computed delay sequence is
non-decreasing, and for `retry_count` 1..10 (every value past the early
0-return) it lies in `[5, 600]` seconds; the delay at `retry_count = 0`
is the early-return value 0. -/
theorem claim_C3_backoff_bounds :
    (∀ r : Int, 0 ≤ r → r < 10 →
        calculate_s_curve_backoff r ≤ calculate_s_curve_backoff (r + 1)) ∧
    (∀ r : Int, 1 ≤ r → r ≤ 10 →
        5 ≤ calculate_s_curve_backoff r ∧ calculate_s_curve_backoff r ≤ 600) := by
  have hrange : ∀ r : Int, 1 ≤ r →
      5 ≤ calculate_s_curve_backoff r ∧ calculate_s_curve_backoff r ≤ 600 := by
    intro r hr
    unfold calculate_s_curve_backoff
    rw [if_neg (by omega)]
    constructor
    · apply Int.le_floor.mpr
      have := s_curve_delay_lb r
      push_cast
      linarith
    · have hlt : ⌊s_curve_delay r⌋ < 600 := by
        apply Int.floor_lt.mpr
        have := s_curve_delay_ub r
        push_cast
        linarith
      omega
  constructor
  · intro r hr0 _
    by_cases hz : r ≤ 0
    · have hr : r = 0 := le_antisymm hz hr0
      subst hr
      have h0 : calculate_s_curve_backoff 0 = 0 := by
        unfold calculate_s_curve_backoff
        rw [if_pos (le_refl (0 : Int))]
      rw [h0]
      norm_num
      have := (hrange 1 (by omega)).1
      omega
    · unfold calculate_s_curve_backoff
      rw [if_neg hz, if_neg (by omega)]
      exact Int.floor_le_floor (s_curve_delay_mono r (r + 1) (by omega))
  · intro r hr _
    exact hrange r hr

theorem claim_C3_witness :
    5 ≤ calculate_s_curve_backoff 3 ∧ calculate_s_curve_backoff 3 ≤ 600 :=
  claim_C3_backoff_bounds.2 3 (by decide) (by decide)

/-! ## Enumerator lemmas -/

theorem bf_start_id_eq_max (cp first : Nat) : bf_start_id cp first = max cp first := by
  unfold bf_start_id
  split_ifs with h <;> omega

theorem bf_loop_fresh (pfx : String) (existing : List String) (last : Nat) :
    ∀ (fuel id : Nat) (batch acc : List Nat) (cp cur : Nat),
      fuel = last + 1 - id → id ≤ last →
      (∀ j, id ≤ j → j ≤ last → format_file_id pfx j ∉ existing) →
      (bf_loop pfx existing fuel id batch acc cp cur).checkpoint = last ∧
      (bf_loop pfx existing fuel id batch acc cp cur).current = last := by
  intro fuel
  induction fuel with
  | zero =>
      intro id batch acc cp cur hfuel hid _
      omega
  | succ f ih =>
      intro id batch acc cp cur hfuel hid hfresh
      have hnotin : format_file_id pfx id ∉ existing := hfresh id le_rfl hid
      by_cases hlast : id = last
      · subst hlast
        have hf : f = 0 := by omega
        subst hf
        by_cases hb : 1000 ≤ (batch ++ [id]).length
        · simp only [bf_loop]
          rw [if_neg hnotin, if_pos hb]
          simp [bf_loop]
        · simp only [bf_loop]
          rw [if_neg hnotin, if_neg hb]
          simp [bf_loop]
      · have hlt : id < last := lt_of_le_of_ne hid hlast
        have hfresh' : ∀ j, id + 1 ≤ j → j ≤ last → format_file_id pfx j ∉ existing :=
          fun j h1 h2 => hfresh j (by omega) h2
        by_cases hb : 1000 ≤ (batch ++ [id]).length
        · have hrec := ih (id + 1) [] (acc ++ (batch ++ [id])) id id (by omega) (by omega) hfresh'
          simp only [bf_loop]
          rw [if_neg hnotin, if_pos hb]
          exact hrec
        · have hrec := ih (id + 1) (batch ++ [id]) acc cp id (by omega) (by omega) hfresh'
          simp only [bf_loop]
          rw [if_neg hnotin, if_neg hb]
          exact hrec

/-- C7 fails in its final-checkpoint half: when every id after the last
full-batch flush is already present in the store, the trailing batch is
empty and `brute_force_worker` does not advance the checkpoint.
Concretely (a state crash recovery can reach: rows flushed, checkpoint
write lost): range [1, 2], both ids already present, stored checkpoint 1
— the worker processes up to id 2 (`brute_force_current_` = 2) but the
persisted checkpoint stays 1. -/
theorem claim_C7_counterexample :
    (brute_force_worker "EFTA"
        [format_file_id "EFTA" 1, format_file_id "EFTA" 2] 1 2 1).checkpoint = 1 ∧
    (brute_force_worker "EFTA"
        [format_file_id "EFTA" 1, format_file_id "EFTA" 2] 1 2 1).current = 2 ∧
    (1 : Nat) ≠ 2 := by
  refine ⟨rfl, rfl, by decide⟩

/-- C7 amended: the enumerator resumes at `max(checkpoint_id, first_id)`
exactly as claimed; and when it finishes the range without a stop
request the persisted checkpoint equals the last id processed PROVIDED
the final partial batch is non-empty — in particular whenever no id of
the traversed range `[start, last]` was already present in the store.
When every id since the last flush was already present, the checkpoint
remains at its last flushed (or initial) value. -/
theorem claim_C7_enumerator :
    ∀ (pfx : String) (existing : List String) (first last cp : Nat),
      bf_start_id cp first = max cp first ∧
      (bf_start_id cp first ≤ last →
        (∀ j, bf_start_id cp first ≤ j → j ≤ last → format_file_id pfx j ∉ existing) →
        (brute_force_worker pfx existing first last cp).checkpoint = last ∧
        (brute_force_worker pfx existing first last cp).current = last) := by
  intro pfx existing first last cp
  refine ⟨bf_start_id_eq_max cp first, ?_⟩
  intro hle hfresh
  unfold brute_force_worker
  exact bf_loop_fresh pfx existing last _ _ [] [] cp _ rfl hle hfresh

theorem claim_C7_witness :
    (brute_force_worker "EFTA" [] 1 3 0).checkpoint = 3 ∧
    (brute_force_worker "EFTA" [] 1 3 0).current = 3 :=
  (claim_C7_enumerator "EFTA" [] 1 3 0).2 (by decide)
    (fun j _ _ => List.not_mem_nil (format_file_id "EFTA" j))

/-! ## Decimal digit lemmas -/

theorem isDigitChar_ofNat (d : Nat) (hd : d < 10) :
    isDigitChar (Char.ofNat (48 + d)) = true := by
  interval_cases d <;> decide

theorem toNat_ofNat_digit (d : Nat) (hd : d < 10) :
    (Char.ofNat (48 + d)).toNat - 48 = d := by
  interval_cases d <;> decide

theorem digitsToNat_append (ds : List Char) (c : Char) :
    digitsToNat (ds ++ [c]) = 10 * digitsToNat ds + (c.toNat - 48) := by
  simp [digitsToNat, List.foldl_append]

theorem natToDigitsAux_all_digit :
    ∀ fuel n, n < fuel → (natToDigitsAux fuel n).all isDigitChar = true := by
  intro fuel
  induction fuel with
  | zero => intro n h; omega
  | succ f ih =>
      intro n h
      by_cases h10 : n < 10
      · simp [natToDigitsAux, h10, isDigitChar_ofNat n h10]
      · have hdiv : n / 10 < f := by omega
        simp [natToDigitsAux, h10, List.all_append, ih (n / 10) hdiv,
          isDigitChar_ofNat (n % 10) (Nat.mod_lt n (by norm_num))]

theorem natToDigitsAux_correct :
    ∀ fuel n, n < fuel → digitsToNat (natToDigitsAux fuel n) = n := by
  intro fuel
  induction fuel with
  | zero => intro n h; omega
  | succ f ih =>
      intro n h
      by_cases h10 : n < 10
      · have : digitsToNat [Char.ofNat (48 + n)] = (Char.ofNat (48 + n)).toNat - 48 := by
          simp [digitsToNat]
        simp [natToDigitsAux, h10, this, toNat_ofNat_digit n h10]
      · have hdiv : n / 10 < f := by omega
        rw [natToDigitsAux, if_neg h10, digitsToNat_append, ih (n / 10) hdiv,
          toNat_ofNat_digit (n % 10) (Nat.mod_lt n (by norm_num))]
        omega

theorem natToDigitsAux_lt_pow :
    ∀ fuel n, n < fuel → n < 10 ^ (natToDigitsAux fuel n).length := by
  intro fuel
  induction fuel with
  | zero => intro n h; omega
  | succ f ih =>
      intro n h
      by_cases h10 : n < 10
      · simp [natToDigitsAux, h10]
      · have hdiv : n / 10 < f := by omega
        have hrec := ih (n / 10) hdiv
        rw [natToDigitsAux, if_neg h10]
        rw [List.length_append, List.length_singleton, pow_succ]
        have : n < 10 * (n / 10) + 10 := by omega
        calc n < 10 * (n / 10) + 10 := this
        _ ≤ 10 * (10 ^ (natToDigitsAux f (n / 10)).length - 1) + 10 := by
              have : n / 10 + 1 ≤ 10 ^ (natToDigitsAux f (n / 10)).length := hrec
              omega
        _ ≤ 10 ^ (natToDigitsAux f (n / 10)).length * 10 := by
              have h1 : 1 ≤ 10 ^ (natToDigitsAux f (n / 10)).length := Nat.one_le_pow _ _ (by norm_num)
              omega

theorem natToDigitsAux_len_le :
    ∀ fuel n d, n < fuel → n < 10 ^ d → 1 ≤ d → (natToDigitsAux fuel n).length ≤ d := by
  intro fuel
  induction fuel with
  | zero => intro n d h; omega
  | succ f ih =>
      intro n d h hnd hd
      by_cases h10 : n < 10
      · simpa [natToDigitsAux, h10] using hd
      · have hdiv : n / 10 < f := by omega
        have hd2 : 2 ≤ d := by
          by_contra hc
          have : d = 1 := by omega
          subst this
          simp at hnd
          omega
        have hstep : n / 10 < 10 ^ (d - 1) := by
          apply Nat.div_lt_of_lt_mul
          have : 10 ^ d = 10 * 10 ^ (d - 1) := by
            rw [← pow_succ']
            congr 1
            omega
          omega
        have := ih (n / 10) (d - 1) hdiv hstep (by omega)
        rw [natToDigitsAux, if_neg h10, List.length_append, List.length_singleton]
        omega

theorem natToDigits_correct (n : Nat) : digitsToNat (natToDigits n) = n :=
  natToDigitsAux_correct (n + 1) n (Nat.lt_succ_self n)

theorem natToDigits_all_digit (n : Nat) : (natToDigits n).all isDigitChar = true :=
  natToDigitsAux_all_digit (n + 1) n (Nat.lt_succ_self n)

theorem natToDigits_lt_pow (n : Nat) : n < 10 ^ (natToDigits n).length :=
  natToDigitsAux_lt_pow (n + 1) n (Nat.lt_succ_self n)

theorem natToDigits_len_le (n d : Nat) (hnd : n < 10 ^ d) (hd : 1 ≤ d) :
    (natToDigits n).length ≤ d :=
  natToDigitsAux_len_le (n + 1) n d (Nat.lt_succ_self n) hnd hd

theorem digitsToNat_replicate_zero (k : Nat) (ds : List Char) :
    digitsToNat (List.replicate k '0' ++ ds) = digitsToNat ds := by
  induction k with
  | zero => simp
  | succ m ih =>
      have : List.replicate (m + 1) '0' ++ ds = '0' :: (List.replicate m '0' ++ ds) := by
        simp [List.replicate_succ]
      rw [this]
      unfold digitsToNat at ih ⊢
      simpa using ih

theorem digitsToNat_lt_pow (ds : List Char) (h : ds.all isDigitChar = true) :
    digitsToNat ds < 10 ^ ds.length := by
  induction ds using List.reverseRecOn with
  | nil => simp [digitsToNat]
  | append_singleton ds c ih =>
      rw [List.all_append] at h
      simp only [Bool.and_eq_true] at h
      have hds := ih h.1
      have hc : c.toNat - 48 ≤ 9 := by
        have := h.2
        simp [isDigitChar] at this
        omega
      rw [digitsToNat_append, List.length_append, List.length_singleton, pow_succ]
      omega

/-! ## Key formatting round-trip lemmas -/

theorem format_file_id_toList (n : Nat) :
    (format_file_id "EFTA" n).toList =
      'E' :: 'F' :: 'T' :: 'A' ::
        (List.replicate (8 - (natToDigits n).length) '0' ++ natToDigits n) := by
  show (format_file_id "EFTA" n).data = _
  unfold format_file_id
  rw [String.data_append]
  rfl

theorem eftaSearch_at_head (rest : List Char) (h8 : (rest.take 8).length = 8)
    (hd : (rest.take 8).all isDigitChar = true) :
    eftaSearch ('E' :: 'F' :: 'T' :: 'A' :: rest) = some (rest.take 8) := by
  simp [eftaSearch, eftaHere, h8, hd]

theorem replicate_zero_all_digit (k : Nat) :
    (List.replicate k '0').all isDigitChar = true := by
  simp only [List.all_eq_true]
  intro c hc
  rw [List.eq_of_mem_replicate hc]
  decide

/-- C10: the key round trip.  For `n < 10^8`,
`parse_file_id_number (format_file_id n) = n` and the formatted key
passes `is_valid_file_id`.  For `n ≥ 10^8`, the formatted key carries
more than 8 digits after the 4-character prefix, `is_valid_file_id`
rejects it, and the round trip reads back only the first 8 digits of
`n` — hence a value below `10^8`, never equal to `n`. -/
theorem claim_C10_round_trip : ∀ n : Nat,
    (n < 10 ^ 8 →
      parse_file_id_number (format_file_id "EFTA" n) = n ∧
      is_valid_file_id (format_file_id "EFTA" n) = true) ∧
    (10 ^ 8 ≤ n →
      8 < (format_file_id "EFTA" n).length - 4 ∧
      is_valid_file_id (format_file_id "EFTA" n) = false ∧
      parse_file_id_number (format_file_id "EFTA" n) =
        digitsToNat ((natToDigits n).take 8) ∧
      parse_file_id_number (format_file_id "EFTA" n) ≠ n) := by
  intro n
  constructor
  · intro hn
    have hlen : (natToDigits n).length ≤ 8 :=
      natToDigits_len_le n 8 hn (by norm_num)
    have hrlen :
        (List.replicate (8 - (natToDigits n).length) '0' ++ natToDigits n).length = 8 := by
      rw [List.length_append, List.length_replicate]
      omega
    have htake :
        (List.replicate (8 - (natToDigits n).length) '0' ++ natToDigits n).take 8 =
          List.replicate (8 - (natToDigits n).length) '0' ++ natToDigits n :=
      List.take_of_length_le (le_of_eq hrlen)
    have hall :
        (List.replicate (8 - (natToDigits n).length) '0' ++ natToDigits n).all
          isDigitChar = true := by
      rw [List.all_append, replicate_zero_all_digit, natToDigits_all_digit]
      rfl
    constructor
    · unfold parse_file_id_number
      rw [format_file_id_toList n,
        eftaSearch_at_head _ (by rw [htake, hrlen]) (by rw [htake]; exact hall), htake]
      dsimp only
      rw [digitsToNat_replicate_zero, natToDigits_correct]
    · unfold is_valid_file_id
      rw [format_file_id_toList n]
      simp only [hrlen, hall]
      rfl
  · intro hn
    have hgt : 8 < (natToDigits n).length := by
      have hlt : (10 : Nat) ^ 8 < 10 ^ (natToDigits n).length :=
        lt_of_le_of_lt hn (natToDigits_lt_pow n)
      exact (Nat.pow_lt_pow_iff_right (by norm_num)).mp hlt
    have hpad : 8 - (natToDigits n).length = 0 := by omega
    have hrest : List.replicate (8 - (natToDigits n).length) '0' ++ natToDigits n =
        natToDigits n := by
      rw [hpad]
      rfl
    have htlen : ((natToDigits n).take 8).length = 8 := by
      rw [List.length_take]
      omega
    have htall : ((natToDigits n).take 8).all isDigitChar = true := by
      simp only [List.all_eq_true]
      intro c hc
      have := List.all_eq_true.mp (natToDigits_all_digit n) c (List.mem_of_mem_take hc)
      exact this
    have hparse : parse_file_id_number (format_file_id "EFTA" n) =
        digitsToNat ((natToDigits n).take 8) := by
      unfold parse_file_id_number
      rw [format_file_id_toList n, hrest, eftaSearch_at_head _ htlen htall]
    refine ⟨?_, ?_, hparse, ?_⟩
    · have : (format_file_id "EFTA" n).length =
          4 + (List.replicate (8 - (natToDigits n).length) '0' ++ natToDigits n).length := by
        show (format_file_id "EFTA" n).data.length = _
        rw [show (format_file_id "EFTA" n).data = (format_file_id "EFTA" n).toList from rfl,
          format_file_id_toList n]
        simp only [List.length_cons, List.length_append]
        omega
      rw [this, hrest]
      omega
    · unfold is_valid_file_id
      rw [format_file_id_toList n, hrest]
      have : ((natToDigits n).length == 8) = false := by
        simp only [beq_eq_false_iff_ne, ne_eq]
        omega
      simp [this]
    · rw [hparse]
      have hlt : digitsToNat ((natToDigits n).take 8) < 10 ^ 8 := by
        have := digitsToNat_lt_pow ((natToDigits n).take 8) htall
        rwa [htlen] at this
      omega

theorem claim_C10_witness :
    (parse_file_id_number (format_file_id "EFTA" 2205655) = 2205655 ∧
     is_valid_file_id (format_file_id "EFTA" 2205655) = true) ∧
    (is_valid_file_id (format_file_id "EFTA" 123456789) = false ∧
     parse_file_id_number (format_file_id "EFTA" 123456789) ≠ 123456789) :=
  ⟨(claim_C10_round_trip 2205655).1 (by norm_num),
   ((claim_C10_round_trip 123456789).2 (by norm_num)).2.1,
   ((claim_C10_round_trip 123456789).2 (by norm_num)).2.2.2⟩

/-! ## LinkExtractor lemmas -/

theorem eftaHere_some (l ds : List Char) (h : eftaHere l = some ds) :
    ds.length = 8 ∧ ds.all isDigitChar = true := by
  unfold eftaHere at h
  split at h
  · split_ifs at h with hc
    rw [Option.some.injEq] at h
    rw [← h]
    exact hc
  · exact absurd h (by simp)

theorem eftaSearch_some : ∀ l ds : List Char, eftaSearch l = some ds →
    ds.length = 8 ∧ ds.all isDigitChar = true := by
  intro l
  induction l with
  | nil => intro ds h; simp [eftaSearch] at h
  | cons c rest ih =>
      intro ds h
      rw [eftaSearch] at h
      cases hh : eftaHere (c :: rest) with
      | some ds' =>
          rw [hh] at h
          rw [Option.some.injEq] at h
          exact h ▸ eftaHere_some (c :: rest) ds' hh
      | none =>
          rw [hh] at h
          exact ih ds h

theorem extract_file_id_shape (pfx s : String)
    (h : extract_file_id pfx s ≠ "") :
    ∃ ds : List Char, extract_file_id pfx s = pfx ++ String.mk ds ∧
      ds.length = 8 ∧ ds.all isDigitChar = true := by
  unfold extract_file_id at h ⊢
  cases hh : eftaSearch s.toList with
  | none =>
      exfalso
      apply h
      rw [hh]
  | some ds => exact ⟨ds, rfl, eftaSearch_some s.toList ds hh⟩

theorem collect_links_shape (pfx : String) :
    ∀ (hrefs : List String) (x : PdfLink), x ∈ collect_links pfx hrefs →
      ∃ ds : List Char, x.file_id = pfx ++ String.mk ds ∧ ds.length = 8 ∧
        ds.all isDigitChar = true := by
  intro hrefs
  induction hrefs with
  | nil => intro x hx; simp [collect_links] at hx
  | cons href rest ih =>
      intro x hx
      simp only [collect_links] at hx
      by_cases hf : extract_file_id pfx href = ""
      · rw [if_pos hf] at hx
        exact ih x hx
      · rw [if_neg hf] at hx
        rcases List.mem_cons.mp hx with hx1 | hx2
        · obtain ⟨ds, hds, h8, hd⟩ := extract_file_id_shape pfx href hf
          subst hx1
          exact ⟨ds, hds, h8, hd⟩
        · exact ih x hx2

theorem uniqAdjGo_subset : ∀ (t : List PdfLink) (kept x : PdfLink),
    x ∈ uniqAdjGo kept t → x ∈ t := by
  intro t
  induction t with
  | nil => intro kept x hx; simp [uniqAdjGo] at hx
  | cons b t ih =>
      intro kept x hx
      rw [uniqAdjGo] at hx
      by_cases hc : kept.file_id = b.file_id
      · rw [if_pos hc] at hx
        exact List.mem_cons_of_mem b (ih kept x hx)
      · rw [if_neg hc] at hx
        rcases List.mem_cons.mp hx with h1 | h2
        · exact h1 ▸ List.mem_cons_self b t
        · exact List.mem_cons_of_mem b (ih b x h2)

theorem uniqAdjByKey_subset (l : List PdfLink) (x : PdfLink)
    (hx : x ∈ uniqAdjByKey l) : x ∈ l := by
  cases l with
  | nil => simp [uniqAdjByKey] at hx
  | cons a t =>
      rw [uniqAdjByKey] at hx
      rcases List.mem_cons.mp hx with h1 | h2
      · exact h1 ▸ List.mem_cons_self a t
      · exact List.mem_cons_of_mem a (uniqAdjGo_subset t a x h2)

theorem sorted_uniqAdjGo : ∀ (t : List PdfLink) (kept : PdfLink),
    List.Sorted (fun a b : PdfLink => a.file_id ≤ b.file_id) (kept :: t) →
    List.Pairwise (fun a b : PdfLink => a.file_id < b.file_id)
      (kept :: uniqAdjGo kept t) := by
  intro t
  induction t with
  | nil => intro kept _; simp [uniqAdjGo]
  | cons b t ih =>
      intro kept hs
      have hkb : kept.file_id ≤ b.file_id :=
        (List.sorted_cons.mp hs).1 b (List.mem_cons_self b t)
      have hsbt : List.Sorted (fun a b : PdfLink => a.file_id ≤ b.file_id) (b :: t) :=
        (List.sorted_cons.mp hs).2
      rw [uniqAdjGo]
      by_cases hc : kept.file_id = b.file_id
      · rw [if_pos hc]
        apply ih kept
        apply List.sorted_cons.mpr
        refine ⟨?_, (List.sorted_cons.mp hsbt).2⟩
        intro x hx
        exact le_trans hkb ((List.sorted_cons.mp hsbt).1 x hx)
      · rw [if_neg hc]
        have hlt : kept.file_id < b.file_id := lt_of_le_of_ne hkb hc
        apply List.pairwise_cons.mpr
        refine ⟨?_, ih b hsbt⟩
        intro x hx
        rcases List.mem_cons.mp hx with h1 | h2
        · rw [h1]
          exact hlt
        · have hxt : x ∈ t := uniqAdjGo_subset t b x h2
          exact lt_of_lt_of_le hlt ((List.sorted_cons.mp hsbt).1 x hxt)

/-- C6: for every list of href matches (hence for every HTML input), the
output of `extract_pdf_links` is strictly sorted in ascending key order —
so no two entries share a key — and every key is the configured prefix
followed by exactly 8 decimal digits. -/
theorem claim_C6_link_extractor : ∀ (pfx : String) (hrefMatches : List String),
    List.Pairwise (fun a b : PdfLink => a.file_id < b.file_id)
      (extract_pdf_links pfx hrefMatches) ∧
    ∀ x ∈ extract_pdf_links pfx hrefMatches, ∃ ds : List Char,
      x.file_id = pfx ++ String.mk ds ∧ ds.length = 8 ∧
      ds.all isDigitChar = true := by
  intro pfx hrefs
  haveI : IsTotal PdfLink (fun a b : PdfLink => a.file_id ≤ b.file_id) :=
    ⟨fun a b => le_total a.file_id b.file_id⟩
  haveI : IsTrans PdfLink (fun a b : PdfLink => a.file_id ≤ b.file_id) :=
    ⟨fun _ _ _ hab hbc => le_trans hab hbc⟩
  have hsorted : List.Sorted (fun a b : PdfLink => a.file_id ≤ b.file_id)
      (List.insertionSort (fun a b : PdfLink => a.file_id ≤ b.file_id)
        (collect_links pfx hrefs)) :=
    List.sorted_insertionSort _ _
  constructor
  · unfold extract_pdf_links
    cases hL : List.insertionSort (fun a b : PdfLink => a.file_id ≤ b.file_id)
        (collect_links pfx hrefs) with
    | nil => simp [uniqAdjByKey]
    | cons a t =>
        rw [hL] at hsorted
        rw [uniqAdjByKey]
        exact sorted_uniqAdjGo t a hsorted
  · intro x hx
    unfold extract_pdf_links at hx
    have hx2 := uniqAdjByKey_subset _ x hx
    rw [List.mem_insertionSort] at hx2
    exact collect_links_shape pfx hrefs x hx2

theorem claim_C6_witness :
    ∃ ds : List Char,
      (PdfLink.mk "EFTA02205655" "https://www.justice.gov/x/EFTA02205655.pdf"
          "EFTA02205655.pdf").file_id = "EFTA" ++ String.mk ds ∧
      ds.length = 8 ∧ ds.all isDigitChar = true :=
  (claim_C6_link_extractor "EFTA" ["x/EFTA02205655.pdf"]).2
    (PdfLink.mk "EFTA02205655" "https://www.justice.gov/x/EFTA02205655.pdf"
      "EFTA02205655.pdf") (by decide)

end Efgrabber
